import Mathlib

/-
Verification of the SIC (system-integration/clipboard) server backend.

Shallow embedding of the Python sources:
  linux-server/backend/clipboard.py     (echo suppressor / clipboard monitor)
  linux-server/backend/filetransfer.py  (chunked encrypted file transfer)
  linux-server/backend/main.py          (pairing authenticator, message dispatch)

Bytes are modelled as `Nat`; byte strings as `List Nat`; Python `dict`s keyed
by strings as association lists with dict-style upsert; `None`-able values as
`Option`.  Calls into the OS (clipboard read/write, file handles) are modelled
by passing the observed/written values explicitly.
-/

namespace SIC

/-! Section: echo suppressor (clipboard.py) -/

/-- The monitor-relevant module state of clipboard.py:
`lastSync` is the `_clipboard_last_sync` one-shot marker, `lastContent` is the
`last_content` variable of the `_monitor_clipboard` loop. -/
structure ClipState where
  lastSync : Option String
  lastContent : String
deriving DecidableEq, Repr

/-- Model of `set_clipboard_text` (clipboard.py lines 23-42): records the text as the
last-sync marker, then writes it to the OS clipboard (`pyperclip.copy`).
The second component is the value written to the OS clipboard. -/
def set_clipboard_text (st : ClipState) (text : String) : ClipState × String :=
  ({ st with lastSync := some text }, text)

/-- Python `str.strip()` whitespace characters: the characters for which
`str.isspace()` holds — tab through carriage return (U+0009-U+000D), the
file/group/record/unit separators (U+001C-U+001F), space, next line (U+0085),
no-break space (U+00A0), Ogham space mark (U+1680), the Unicode spaces
U+2000-U+200A, line separator (U+2028), paragraph separator (U+2029), narrow
no-break space (U+202F), medium mathematical space (U+205F) and ideographic
space (U+3000). -/
def isPySpace (c : Char) : Bool :=
  decide (9 ≤ c.toNat ∧ c.toNat ≤ 13) ||
  decide (28 ≤ c.toNat ∧ c.toNat ≤ 31) ||
  decide (c.toNat = 32) || decide (c.toNat = 133) || decide (c.toNat = 160) ||
  decide (c.toNat = 5760) ||
  decide (8192 ≤ c.toNat ∧ c.toNat ≤ 8202) ||
  decide (c.toNat = 8232) || decide (c.toNat = 8233) ||
  decide (c.toNat = 8239) || decide (c.toNat = 8287) ||
  decide (c.toNat = 12288)

/-- Truthiness of `current_content.strip()`: the string has a non-whitespace
character. -/
def hasNonWS (s : String) : Bool :=
  s.toList.any (fun c => !(isPySpace c))

/-- One iteration of the `_monitor_clipboard` polling loop (clipboard.py lines
80-118), given the value `current` observed on the OS clipboard
(`get_clipboard_text()`).  The callback fires exactly when the content changed
since the previous poll, differs from the one-shot sync marker, and strips to a
non-empty string; afterwards the marker is cleared when it equals the observed
value, and `last_content` becomes the observed value.  Returns the new state
and whether the change callback fired. -/
def pollStep (st : ClipState) (current : String) : ClipState × Bool :=
  let fire := decide (current ≠ st.lastContent) &&
              decide (st.lastSync ≠ some current) &&
              hasNonWS current
  let newSync := if st.lastSync = some current then none else st.lastSync
  ({ lastSync := newSync, lastContent := current }, fire)

/-! Section: transfer manager, chunk reads and progress (filetransfer.py) -/

/-- Result of `read_file_chunk` (filetransfer.py lines 413-479) as visible to
the caller: either a data chunk with its `final_chunk` flag, or the
end-of-file completion path (empty read at a non-zero index, which marks the
transfer completed and reports `final_chunk = true` with empty data). -/
inductive ChunkResult where
  | data (chunk : List Nat) (finalChunk : Bool)
  | eofComplete
deriving DecidableEq, Repr

/-- Model of `read_file_chunk` on an upload whose source file has byte contents `file`:
seeks to `idx * chunkSize`, reads up to `chunkSize` bytes; an empty read at a
non-zero index takes the completion path; otherwise the chunk is returned with
`final_chunk = ((idx+1) * chunkSize ≥ file.length)` (the transfer's recorded
`file_size` equals the file's length at preparation time). -/
def read_file_chunk (file : List Nat) (idx chunkSize : Nat) : ChunkResult :=
  if (file.drop (idx * chunkSize)).take chunkSize = [] ∧ 0 < idx then ChunkResult.eofComplete
  else ChunkResult.data ((file.drop (idx * chunkSize)).take chunkSize)
    (decide ((idx + 1) * chunkSize ≥ file.length))

/-- The amount `update_progress` adds to `bytes_transferred` when
`read_file_chunk` is called at index `idx`: the length of the chunk read, and
nothing on the end-of-file completion path (which returns before
`update_progress`). -/
def progressDelta (file : List Nat) (chunkSize idx : Nat) : Nat :=
  match read_file_chunk file idx chunkSize with
  | ChunkResult.data c _ => c.length
  | ChunkResult.eofComplete => 0

/-- Value of `bytes_transferred` after a sequence of `read_file_chunk` calls at the
indices `idxs`, starting from 0 (`FileTransfer.update_progress` does
`self.bytes_transferred += bytes_chunk`, filetransfer.py line 82). -/
def bytesAfter (file : List Nat) (chunkSize : Nat) (idxs : List Nat) : Nat :=
  idxs.foldl (fun b i => b + progressDelta file chunkSize i) 0

/-! Section: pairing authenticator and message dispatch (main.py) -/

/-- A paired-device record as stored in `PAIRED_DEVICES[device_id]`
(main.py lines 247-251): `{name, type, paired_at}`.  `time.time()` is
modelled as a `Nat` timestamp passed in by the caller. -/
structure DeviceRec where
  name : String
  dtype : String
  paired_at : Nat
deriving DecidableEq, Repr

/-- Python-dict upsert on an association list: an existing key has its value
replaced in place, a new key is appended. -/
def dictInsert {α β : Type} [DecidableEq α] (l : List (α × β)) (k : α) (v : β) :
    List (α × β) :=
  if l.any (fun p => p.1 = k) then l.map (fun p => if p.1 = k then (k, v) else p)
  else l ++ [(k, v)]

/-- The pairing-relevant global state of main.py: `PAIRING_CODE` and
`PAIRED_DEVICES` (keys are `data.get("device_id")`, hence `Option String`). -/
structure PairState where
  pairingCode : String
  pairedDevices : List (Option String × DeviceRec)
deriving DecidableEq, Repr

/-- The fields of a `pairing_request` frame as read by `handle_pairing` via
`data.get(...)`: each is `none` when the key is missing. -/
structure PairingRequest where
  code : Option String
  device_id : Option String
  device_name : Option String
  device_type : Option String
deriving DecidableEq, Repr

/-- The `pairing_response` frame sent back by `handle_pairing`: on success
`{status: "success", device_id, device_name, device_type}`, on failure
`{status: "failed", reason}`. -/
inductive PairingResponse where
  | success (device_id : Option String) (device_name device_type : String)
  | failed (reason : String)
deriving DecidableEq, Repr

/-- Model of `handle_pairing` (main.py lines 238-271): on `data.get("code") ==
PAIRING_CODE` it upserts the device record into `PAIRED_DEVICES`, persists it
(`save_paired_devices`), and replies success; otherwise it replies failure
with the fixed reason `"Invalid pairing code"` and changes nothing.  The
function declares `global PAIRING_CODE` but never assigns it: the pairing
code is left untouched on both branches.  (The success branch also rebinds the
connection in the connection registry; the registry is independent of the
pairing table and the response and is not modelled here.) -/
def handle_pairing (st : PairState) (req : PairingRequest) (now : Nat) :
    PairState × PairingResponse :=
  if req.code = some st.pairingCode then
    let name := req.device_name.getD "Unknown Device"
    let dtype := req.device_type.getD "unknown"
    ({ st with
        pairedDevices := dictInsert st.pairedDevices req.device_id ⟨name, dtype, now⟩ },
     PairingResponse.success req.device_id name dtype)
  else
    (st, PairingResponse.failed "Invalid pairing code")

/-- The exact `json.dumps` serialization of the failure `pairing_response`
frame sent on a code mismatch (main.py lines 267-271). -/
def failResponseText : String :=
  "\x7b\"type\": \"pairing_response\", \"status\": \"failed\", \"reason\": \"Invalid pairing code\"\x7d"

/-- A character of the pairing-code alphabet
(`string.ascii_uppercase + string.digits`, main.py line 75). -/
def isCodeChar (c : Char) : Bool := c.isUpper || c.isDigit

/-- The server-side state touched by the message dispatcher: the pairing
state, the clipboard module state and the OS clipboard content. -/
structure ServerState where
  pairing : PairState
  clip : ClipState
  osClipboard : String
deriving DecidableEq, Repr

/-- An inbound frame as read by `websocket_endpoint` via `data.get(...)`. -/
structure Frame where
  type : Option String
  code : Option String
  device_id : Option String
  device_name : Option String
  device_type : Option String
  text : Option String
  notification_type : Option String
  message : Option String
deriving DecidableEq, Repr

/-- A frame sent out by the server while handling one inbound frame. -/
inductive OutMessage where
  | pairingResponse (r : PairingResponse)
  | pong
  | notifyBroadcast (notification_type message : String)
deriving DecidableEq, Repr

/-- Model of `handle_clipboard` (main.py lines 273-275): a stub that only logs
"Clipboard sync request received but not implemented." — it neither checks
pairing, nor touches the clipboard, nor replies. -/
def handle_clipboard (st : ServerState) (_frame : Frame) : ServerState := st

/-- Model of `handle_notification` (main.py lines 285-305): drops the frame when
`notification_type` or `message` is missing or falsy, otherwise broadcasts it
to every other connection.  No server state is mutated. -/
def handle_notification (st : ServerState) (frame : Frame) :
    ServerState × List OutMessage :=
  match frame.notification_type, frame.message with
  | some nt, some m =>
      if nt = "" ∨ m = "" then (st, [])
      else (st, [OutMessage.notifyBroadcast nt m])
  | _, _ => (st, [])

/-- The per-frame dispatch of `websocket_endpoint` (main.py lines 209-229):
routes on `data.get("type")`; `file_transfer_init` and `file_transfer_chunk`
go to stub handlers that only log; unknown types are logged and dropped with
no reply. -/
def dispatch (st : ServerState) (frame : Frame) (now : Nat) :
    ServerState × List OutMessage :=
  if frame.type = some "pairing_request" then
    let pr := handle_pairing st.pairing
      ⟨frame.code, frame.device_id, frame.device_name, frame.device_type⟩ now
    ({ st with pairing := pr.1 }, [OutMessage.pairingResponse pr.2])
  else if frame.type = some "clipboard_sync" then
    (handle_clipboard st frame, [])
  else if frame.type = some "notification" then
    handle_notification st frame
  else if frame.type = some "file_transfer_init" then
    (st, [])
  else if frame.type = some "file_transfer_chunk" then
    (st, [])
  else if frame.type = some "ping" then
    (st, [OutMessage.pong])
  else
    (st, [])

/-! Section: transfer manager, table operations (filetransfer.py) -/

/-- The `FileTransfer` entity (filetransfer.py lines 32-60) restricted to the
fields the table operations touch.  `fileOpen` models `file_handle is not
None`; the encryption key and IV are kept in their base64 transport form (the
base64 codec is the external library). -/
structure Transfer where
  file_path : String
  file_name : String
  file_size : Nat
  direction : String
  device_id : String
  bytes_transferred : Nat
  status : String
  fileOpen : Bool
  key_b64 : String
  iv_b64 : String
deriving DecidableEq, Repr

/-- Lookup in the `active_transfers` dict. -/
def lookupTransfer (tbl : List (String × Transfer)) (file_id : String) :
    Option Transfer :=
  (tbl.find? (fun p => p.1 = file_id)).map (fun p => p.2)

/-- The dictionary returned by `cancel_transfer`: either
`{"status": "error", "message": ...}` or
`{"file_id", "status": "canceled", "message"}`. -/
inductive CancelResult where
  | errorResult (message : String)
  | canceled (file_id message : String)
deriving DecidableEq, Repr

/-- Model of `cancel_transfer` (filetransfer.py lines 492-524): an unknown `file_id`
returns the error dictionary and touches nothing (no exception is raised);
otherwise the handle is closed, the status set to `"canceled"`, for a
download the partial file is best-effort deleted, and cleanup is scheduled.
The filesystem is modelled as the list `fs` of existing paths; the returned
triple is (new table, new filesystem, result dictionary). -/
def cancel_transfer (tbl : List (String × Transfer)) (fs : List String)
    (file_id : String) : List (String × Transfer) × List String × CancelResult :=
  match lookupTransfer tbl file_id with
  | none => (tbl, fs, CancelResult.errorResult ("Unknown transfer ID: " ++ file_id))
  | some t =>
      let t2 : Transfer := { t with fileOpen := false, status := "canceled" }
      let fs2 := if t.direction = "download" ∧ t.file_path ∈ fs
                 then fs.erase t.file_path else fs
      (dictInsert tbl file_id t2, fs2, CancelResult.canceled file_id "Transfer canceled successfully")

/-- Python truthiness of an optional string (`None` and `""` are falsy). -/
def truthyStr : Option String → Bool
  | none => false
  | some s => decide (s ≠ "")

/-- Python truthiness of an optional integer (`None` and `0` are falsy). -/
def truthyNat : Option Nat → Bool
  | none => false
  | some n => decide (n ≠ 0)

/-- The file-info descriptor read by `prepare_download_transfer` via
`file_info.get(...)` (filetransfer.py lines 297-301). -/
structure FileInfo where
  file_id : Option String
  file_name : Option String
  file_size : Option Nat
  key : Option String
  iv : Option String
deriving DecidableEq, Repr

/-- Model of `Path(name).stem` and `Path(name).suffix`: pathlib splits at the
last dot only when that dot sits strictly inside the name
(`0 < i < len(name) - 1` on the `rfind` result); a leading or trailing dot
yields no suffix. -/
def splitAtLastDot (name : String) : String × String :=
  let cs := name.toList
  match cs.reverse.findIdx? (fun c => c = '.') with
  | none => (name, "")
  | some i =>
      let pos := cs.length - 1 - i
      if pos = 0 ∨ pos = cs.length - 1 then (name, "")
      else (⟨cs.take pos⟩, ⟨cs.drop pos⟩)

/-- The collision candidate `f"{stem} ({counter}){suffix}"` resolved under the
download directory. -/
def collisionCandidate (dir file_name : String) (counter : Nat) : String :=
  dir ++ "/" ++ (splitAtLastDot file_name).1 ++ " (" ++ toString counter ++ ")"
    ++ (splitAtLastDot file_name).2

/-- The `while save_path.exists()` loop of `prepare_download_transfer`
(filetransfer.py lines 313-316), with explicit fuel; fuel `|fs| + 1` is enough
since at most `|fs|` candidates can collide. -/
def resolveLoop (fs : List String) (dir file_name : String) :
    Nat → Nat → String
  | 0, counter => collisionCandidate dir file_name counter
  | fuel + 1, counter =>
      let p := collisionCandidate dir file_name counter
      if p ∈ fs then resolveLoop fs dir file_name fuel (counter + 1) else p

/-- The save-path resolution of `prepare_download_transfer`: the plain
`dir/file_name` if it does not exist, else the first free
`" (n)"`-suffixed candidate. -/
def resolveSavePath (fs : List String) (dir file_name : String) : String :=
  let base := dir ++ "/" ++ file_name
  if base ∈ fs then resolveLoop fs dir file_name (fs.length + 1) 1 else base

/-- The fixed receive directory `DEFAULT_DOWNLOAD_DIR` (filetransfer.py
line 25), relative to the home directory. -/
def downloadDir : String := "~/Downloads/SIC-Transfers"

/-- Model of `prepare_download_transfer` (filetransfer.py lines 285-345): raises
`ValueError("Missing required file information")` when any of `file_id`,
`file_name`, `file_size`, `key`, `iv` is falsy (`not all([...])`); otherwise
resolves a unique save path, opens the sink (the successful-open case of the
external OS call; `open` in `"wb"` mode creates the sink file), stores the
transfer with status `"in_progress"`, and returns
`{file_id, save_path, status: "ready"}` together with the new table and
filesystem. -/
def prepare_download_transfer (info : FileInfo) (device_id : String)
    (fs : List String) (tbl : List (String × Transfer)) :
    Except String ((String × String) × List (String × Transfer) × List String) :=
  if truthyStr info.file_id && truthyStr info.file_name && truthyNat info.file_size
      && truthyStr info.key && truthyStr info.iv then
    let file_id := info.file_id.getD ""
    let file_name := info.file_name.getD ""
    let save_path := resolveSavePath fs downloadDir file_name
    let t : Transfer :=
      { file_path := save_path
        file_name := file_name
        file_size := info.file_size.getD 0
        direction := "download"
        device_id := device_id
        bytes_transferred := 0
        status := "in_progress"
        fileOpen := true
        key_b64 := info.key.getD ""
        iv_b64 := info.iv.getD "" }
    Except.ok ((file_id, save_path), dictInsert tbl file_id t, save_path :: fs)
  else
    Except.error "Missing required file information"

/-! Section: chunk codec (filetransfer.py `encrypt_file_chunk` / `decrypt_file_chunk`)

The codec is PKCS7 padding followed by AES-256-CBC.  The AES-256 block
permutation itself is the external `cryptography` library primitive; it is
abstracted as a keyed function on 16-byte blocks (`aes key : block → block`),
with its standard inverse property taken as the library's contract.  The CBC
chaining and the PKCS7 padding are modelled explicitly, exactly as the source
composes them. -/

/-- AES block size in bytes (`algorithms.AES.block_size` is 128 bits). -/
def aesBlockBytes : Nat := 16

/-- PKCS7 padding to the cipher block size (the `padder()` of
`padding.PKCS7(algorithms.AES.block_size)`): appends `p` copies of the byte
`p`, where `p = 16 - len % 16` (a full block when the input is already
aligned). -/
def pkcs7Pad (d : List Nat) : List Nat :=
  d ++ List.replicate (aesBlockBytes - d.length % aesBlockBytes)
    (aesBlockBytes - d.length % aesBlockBytes)

/-- PKCS7 unpadding (the `unpadder()`): requires a non-empty input of
block-aligned length whose last byte `p` lies in `[1, 16]` and whose last `p`
bytes all equal `p`; strips those `p` bytes, and signals `ValueError` as
`none` otherwise. -/
def pkcs7Unpad (d : List Nat) : Option (List Nat) :=
  if d.length = 0 ∨ d.length % aesBlockBytes ≠ 0 then none
  else
    let p := d.getLast?.getD 0
    if 1 ≤ p ∧ p ≤ aesBlockBytes ∧
        (d.drop (d.length - p)).all (fun b => decide (b = p)) then
      some (d.take (d.length - p))
    else none

/-- Byte-wise XOR of two equal-length blocks. -/
def zipXor (a b : List Nat) : List Nat := List.zipWith (fun x y => x ^^^ y) a b

/-- CBC encryption over a list of plaintext blocks with block cipher `E` and
chaining value `iv`: `c_i = E (p_i ⊕ c_(i-1))`. -/
def cbcEncryptBlocks (E : List Nat → List Nat) (iv : List Nat) :
    List (List Nat) → List (List Nat)
  | [] => []
  | b :: bs =>
      let c := E (zipXor iv b)
      c :: cbcEncryptBlocks E c bs

/-- CBC decryption over a list of ciphertext blocks with inverse block cipher
`D`: `p_i = D c_i ⊕ c_(i-1)`. -/
def cbcDecryptBlocks (D : List Nat → List Nat) (iv : List Nat) :
    List (List Nat) → List (List Nat)
  | [] => []
  | c :: cs => zipXor iv (D c) :: cbcDecryptBlocks D c cs

/-- Split a byte string into 16-byte blocks (the block traversal performed by
`cipher.update` on a block-aligned input). -/
def chunksOf16 : List Nat → List (List Nat)
  | [] => []
  | a :: l => ((a :: l).take 16) :: chunksOf16 ((a :: l).drop 16)
termination_by l => l.length
decreasing_by
  simp only [List.length_drop, List.length_cons]
  omega

/-- Model of `encrypt_file_chunk` (filetransfer.py lines 135-156): PKCS7-pad the chunk,
then AES-CBC-encrypt it under `aes key` with initialization vector `iv`. -/
def encrypt_file_chunk (aes : List Nat → List Nat → List Nat)
    (chunk key iv : List Nat) : List Nat :=
  (cbcEncryptBlocks (aes key) iv (chunksOf16 (pkcs7Pad chunk))).flatten

/-- Model of `decrypt_file_chunk` (filetransfer.py lines 158-184): AES-CBC-decrypt
under `aesInv key` with `iv`, then strip the PKCS7 padding; when unpadding
fails (`ValueError`) the raw decrypted bytes are returned unchanged. -/
def decrypt_file_chunk (aesInv : List Nat → List Nat → List Nat)
    (encrypted key iv : List Nat) : List Nat :=
  (pkcs7Unpad ((cbcDecryptBlocks (aesInv key) iv (chunksOf16 encrypted)).flatten)).getD
    ((cbcDecryptBlocks (aesInv key) iv (chunksOf16 encrypted)).flatten)

/-! Section: concrete states used by the claim analyses -/

/-- A pairing state with an empty device table and code `"ABC123"`. -/
def exPairState : PairState := { pairingCode := "ABC123", pairedDevices := [] }

/-- A well-formed pairing request carrying the matching code. -/
def exPairReq : PairingRequest :=
  { code := some "ABC123", device_id := some "dev-1",
    device_name := some "Phone", device_type := some "android" }

/-- A server state whose table already contains the paired device `"d"` and
whose OS clipboard holds `"old"`. -/
def exServerState : ServerState :=
  { pairing := { pairingCode := "ABC123",
                 pairedDevices := [(some "d", ⟨"Phone", "android", 0⟩)] },
    clip := { lastSync := none, lastContent := "" },
    osClipboard := "old" }

/-- A `clipboard_sync` frame from the paired device `"d"` carrying the text
`"hello"`. -/
def exClipFrame : Frame :=
  { type := some "clipboard_sync", code := none, device_id := some "d",
    device_name := none, device_type := none, text := some "hello",
    notification_type := none, message := none }

/-! Section: helper lemmas -/

theorem progressDelta_eq (file : List Nat) (cs idx : Nat) :
    progressDelta file cs idx = min cs (file.length - idx * cs) := by
  unfold progressDelta read_file_chunk
  by_cases h : (file.drop (idx * cs)).take cs = [] ∧ 0 < idx
  · rw [if_pos h]
    rcases h with ⟨hnil, _⟩
    have hl : ((file.drop (idx * cs)).take cs).length = 0 := by rw [hnil]; rfl
    simp only [List.length_take, List.length_drop] at hl
    have h0 : min cs (file.length - idx * cs) = 0 := by omega
    rw [h0]
  · rw [if_neg h]
    simp [List.length_take, List.length_drop]

theorem bytesAfter_append (file : List Nat) (cs : Nat) (pre suf : List Nat) :
    bytesAfter file cs (pre ++ suf) =
      suf.foldl (fun b i => b + progressDelta file cs i) (bytesAfter file cs pre) := by
  simp [bytesAfter, List.foldl_append]

theorem foldl_progress_le (file : List Nat) (cs : Nat) (l : List Nat) :
    ∀ b : Nat, b ≤ l.foldl (fun b i => b + progressDelta file cs i) b := by
  induction l with
  | nil => intro b; simp
  | cons i l ih =>
    intro b
    calc b ≤ b + progressDelta file cs i := Nat.le_add_right _ _
    _ ≤ _ := ih _

theorem foldl_progress_add (file : List Nat) (cs : Nat) (l : List Nat) :
    ∀ b : Nat, l.foldl (fun b i => b + progressDelta file cs i) b =
      b + l.foldl (fun b i => b + progressDelta file cs i) 0 := by
  induction l with
  | nil => intro b; simp
  | cons i l ih =>
    intro b
    simp only [List.foldl_cons]
    rw [ih (b + progressDelta file cs i), ih (0 + progressDelta file cs i)]
    omega

theorem bytesAfter_eq_sum (file : List Nat) (cs : Nat) (idxs : List Nat) :
    bytesAfter file cs idxs = (idxs.map (progressDelta file cs)).sum := by
  induction idxs with
  | nil => rfl
  | cons i l ih =>
    simp only [bytesAfter, List.foldl_cons, List.map_cons, List.sum_cons]
    rw [foldl_progress_add file cs l (0 + progressDelta file cs i)]
    simp only [bytesAfter] at ih
    rw [ih]
    omega

theorem sum_range_progressDelta (file : List Nat) (cs m : Nat) :
    ∑ i ∈ Finset.range m, progressDelta file cs i = min (m * cs) file.length := by
  induction m with
  | zero => simp
  | succ m ih =>
    rw [Finset.sum_range_succ, ih, progressDelta_eq]
    have h2 : (m + 1) * cs = m * cs + cs := by ring
    omega

theorem bytesAfter_nodup_le (file : List Nat) (cs : Nat) (idxs : List Nat)
    (h : idxs.Nodup) : bytesAfter file cs idxs ≤ file.length := by
  rw [bytesAfter_eq_sum, ← List.sum_toFinset _ h]
  have hle : idxs.toFinset.sum (progressDelta file cs)
      ≤ ∑ i ∈ Finset.range file.length, progressDelta file cs i := by
    apply Finset.sum_le_sum_of_ne_zero
    intro i _ hne
    rw [progressDelta_eq] at hne
    have h1 : 0 < cs ∧ i * cs < file.length := by omega
    have h2 : i * 1 ≤ i * cs := Nat.mul_le_mul_left i h1.1
    exact Finset.mem_range.mpr (by omega)
  have hsum := sum_range_progressDelta file cs file.length
  omega

theorem pkcs7Pad_length_mod (d : List Nat) : (pkcs7Pad d).length % 16 = 0 := by
  simp only [pkcs7Pad, aesBlockBytes, List.length_append, List.length_replicate]
  omega

theorem pkcs7Unpad_pkcs7Pad (d : List Nat) : pkcs7Unpad (pkcs7Pad d) = some d := by
  have hplt : d.length % 16 < 16 := Nat.mod_lt _ (by omega)
  set p := 16 - d.length % 16 with hp
  have hp1 : 1 ≤ p := by omega
  have hp16 : p ≤ 16 := by omega
  have hpad : pkcs7Pad d = d ++ List.replicate p p := by
    simp [pkcs7Pad, aesBlockBytes, hp]
  have hlen : (pkcs7Pad d).length = d.length + p := by
    simp [hpad, List.length_append, List.length_replicate]
  have hmod : (pkcs7Pad d).length % 16 = 0 := pkcs7Pad_length_mod d
  obtain ⟨pp, hpp⟩ : ∃ pp, p = pp + 1 := ⟨p - 1, by omega⟩
  have hlast : (pkcs7Pad d).getLast? = some p := by
    rw [hpad, hpp, List.replicate_succ', ← List.append_assoc, List.getLast?_concat]
  have hsub : (d ++ List.replicate p p).length - p = d.length := by
    simp only [List.length_append, List.length_replicate]
    omega
  have hdrop : (pkcs7Pad d).drop ((pkcs7Pad d).length - p) = List.replicate p p := by
    rw [hpad, hsub]
    exact List.drop_left d (List.replicate p p)
  have htake : (pkcs7Pad d).take ((pkcs7Pad d).length - p) = d := by
    rw [hpad, hsub]
    exact List.take_left d (List.replicate p p)
  unfold pkcs7Unpad
  rw [if_neg (by simp only [aesBlockBytes]; omega)]
  simp only [hlast, Option.getD_some]
  rw [if_pos]
  · rw [htake]
  · refine ⟨hp1, by simpa [aesBlockBytes] using hp16, ?_⟩
    rw [hdrop]
    simp [List.all_eq_true, List.mem_replicate]

theorem zipXor_length (a b : List Nat) :
    (zipXor a b).length = min a.length b.length := by
  simp [zipXor]

theorem zipXor_cancel (a b : List Nat) (h : a.length = b.length) :
    zipXor a (zipXor a b) = b := by
  induction a generalizing b with
  | nil =>
    cases b with
    | nil => rfl
    | cons y ys => simp at h
  | cons x xs ih =>
    cases b with
    | nil => simp at h
    | cons y ys =>
      simp only [List.length_cons] at h
      simp only [zipXor, List.zipWith_cons_cons]
      rw [Nat.xor_cancel_left]
      exact congrArg _ (ih ys (by omega))

theorem chunksOf16_flatten_restore_aux :
    ∀ (n : Nat) (l : List Nat), l.length ≤ n → (chunksOf16 l).flatten = l := by
  intro n
  induction n with
  | zero =>
    intro l hl
    have hnil : l = [] := List.eq_nil_of_length_eq_zero (by omega)
    subst hnil
    simp [chunksOf16]
  | succ n ih =>
    intro l hl
    cases l with
    | nil => simp [chunksOf16]
    | cons a t =>
      simp only [chunksOf16, List.flatten_cons]
      rw [ih ((a :: t).drop 16)
        (by simp only [List.length_drop, List.length_cons]
            simp only [List.length_cons] at hl
            omega)]
      exact List.take_append_drop 16 (a :: t)

theorem chunksOf16_flatten_restore (l : List Nat) :
    (chunksOf16 l).flatten = l :=
  chunksOf16_flatten_restore_aux l.length l (le_refl _)

theorem chunksOf16_block_length_aux :
    ∀ (n : Nat) (l : List Nat), l.length ≤ n → l.length % 16 = 0 →
      ∀ b ∈ chunksOf16 l, b.length = 16 := by
  intro n
  induction n with
  | zero =>
    intro l hl _ b hb
    have hnil : l = [] := List.eq_nil_of_length_eq_zero (by omega)
    subst hnil
    simp [chunksOf16] at hb
  | succ n ih =>
    intro l hl hmod b hb
    cases l with
    | nil => simp [chunksOf16] at hb
    | cons a t =>
      simp only [chunksOf16, List.mem_cons] at hb
      have hge : 16 ≤ (a :: t).length := by
        have h0 : 0 < (a :: t).length := by simp
        omega
      simp only [List.length_cons] at hge hmod hl
      rcases hb with h | h
      · subst h
        simp only [List.length_take, List.length_cons]
        omega
      · exact ih ((a :: t).drop 16)
          (by simp only [List.length_drop, List.length_cons]; omega)
          (by simp only [List.length_drop, List.length_cons]; omega) b h

theorem chunksOf16_block_length (l : List Nat) (hmod : l.length % 16 = 0) :
    ∀ b ∈ chunksOf16 l, b.length = 16 :=
  chunksOf16_block_length_aux l.length l (le_refl _) hmod

theorem chunksOf16_flatten_blocks (bs : List (List Nat))
    (h : ∀ b ∈ bs, b.length = 16) : chunksOf16 bs.flatten = bs := by
  induction bs with
  | nil => simp [chunksOf16]
  | cons b bs ih =>
    have hb : b.length = 16 := h b (List.mem_cons_self b bs)
    have hbne : b ≠ [] := by
      intro hnil
      rw [hnil] at hb
      simp at hb
    have hne : b ++ bs.flatten ≠ [] := by
      intro hnil
      exact hbne (List.append_eq_nil.mp hnil).1
    rw [List.flatten_cons]
    obtain ⟨a, t, hat⟩ : ∃ a t, b ++ bs.flatten = a :: t := by
      cases hx : b ++ bs.flatten with
      | nil => exact absurd hx hne
      | cons a t => exact ⟨a, t, rfl⟩
    rw [hat]
    simp only [chunksOf16]
    rw [← hat, List.take_left' hb, List.drop_left' hb,
      ih (fun c hc => h c (List.mem_cons_of_mem _ hc))]

theorem cbcEncryptBlocks_block_length (E : List Nat → List Nat)
    (hE : ∀ b, b.length = 16 → (E b).length = 16) :
    ∀ (bs : List (List Nat)) (iv : List Nat), iv.length = 16 →
      (∀ b ∈ bs, b.length = 16) → ∀ c ∈ cbcEncryptBlocks E iv bs, c.length = 16 := by
  intro bs
  induction bs with
  | nil => intro iv _ _ c hc; simp [cbcEncryptBlocks] at hc
  | cons b bs ih =>
    intro iv hiv hbs c hc
    have hb : b.length = 16 := hbs b (List.mem_cons_self b bs)
    have hc16 : (E (zipXor iv b)).length = 16 :=
      hE _ (by rw [zipXor_length, hiv, hb]; rfl)
    simp only [cbcEncryptBlocks, List.mem_cons] at hc
    rcases hc with h | h
    · rw [h]; exact hc16
    · exact ih (E (zipXor iv b)) hc16
        (fun x hx => hbs x (List.mem_cons_of_mem _ hx)) c h

theorem cbcDecrypt_cbcEncrypt (E D : List Nat → List Nat)
    (hED : ∀ b, b.length = 16 → D (E b) = b)
    (hE : ∀ b, b.length = 16 → (E b).length = 16) :
    ∀ (bs : List (List Nat)) (iv : List Nat), iv.length = 16 →
      (∀ b ∈ bs, b.length = 16) →
      cbcDecryptBlocks D iv (cbcEncryptBlocks E iv bs) = bs := by
  intro bs
  induction bs with
  | nil => intro iv _ _; rfl
  | cons b bs ih =>
    intro iv hiv hbs
    have hb : b.length = 16 := hbs b (List.mem_cons_self b bs)
    have hxlen : (zipXor iv b).length = 16 := by
      rw [zipXor_length, hiv, hb]; rfl
    simp only [cbcEncryptBlocks, cbcDecryptBlocks]
    rw [hED _ hxlen, zipXor_cancel iv b (by omega),
      ih (E (zipXor iv b)) (hE _ hxlen)
        (fun x hx => hbs x (List.mem_cons_of_mem _ hx))]

/-- Claim C2: for every byte string `chunk`, every 32-byte key and every
16-byte IV, `decrypt_file_chunk (encrypt_file_chunk chunk key iv) key iv =
chunk` — the chunk codec round-trips.  The AES-256 block permutation is the
external library primitive, abstracted as a keyed block function `aes` whose
decryption direction `aesInv` inverts it on 16-byte blocks (the library's
contract). -/
theorem decrypt_encrypt_roundtrip (aes aesInv : List Nat → List Nat → List Nat)
    (key iv chunk : List Nat)
    (hkey : key.length = 32) (hiv : iv.length = 16)
    (hED : ∀ b, b.length = 16 → aesInv key (aes key b) = b)
    (hE : ∀ b, b.length = 16 → (aes key b).length = 16) :
    decrypt_file_chunk aesInv (encrypt_file_chunk aes chunk key iv) key iv = chunk := by
  have hmod : (pkcs7Pad chunk).length % 16 = 0 := pkcs7Pad_length_mod chunk
  have hblocks : ∀ b ∈ chunksOf16 (pkcs7Pad chunk), b.length = 16 :=
    chunksOf16_block_length _ hmod
  have hcblocks : ∀ c ∈ cbcEncryptBlocks (aes key) iv (chunksOf16 (pkcs7Pad chunk)),
      c.length = 16 :=
    cbcEncryptBlocks_block_length (aes key) hE _ iv hiv hblocks
  unfold decrypt_file_chunk encrypt_file_chunk
  rw [chunksOf16_flatten_blocks _ hcblocks,
    cbcDecrypt_cbcEncrypt (aes key) (aesInv key) hED hE _ iv hiv hblocks,
    chunksOf16_flatten_restore, pkcs7Unpad_pkcs7Pad]
  rfl

/-- Witness for C2: the round-trip at a concrete chunk, the identity block
permutation, an all-zero 32-byte key and an all-zero 16-byte IV. -/
theorem decrypt_encrypt_roundtrip_witness :
    decrypt_file_chunk (fun _ b => b)
      (encrypt_file_chunk (fun _ b => b) [1, 2, 3] (List.replicate 32 0)
        (List.replicate 16 0))
      (List.replicate 32 0) (List.replicate 16 0) = [1, 2, 3] :=
  decrypt_encrypt_roundtrip (fun _ b => b) (fun _ b => b)
    (List.replicate 32 0) (List.replicate 16 0) [1, 2, 3]
    (by simp) (by simp) (fun b _ => rfl) (fun b h => h)

/-- Claim C1 is a code bug: `handle_pairing` never rotates the pairing code
(it declares `global PAIRING_CODE` but never assigns it), so after a
successful pairing the same code is still accepted: a replayed
`pairing_request` with the now-supposedly-stale code succeeds again and
rewrites the paired-device record (its `paired_at` timestamp changes). -/
theorem pairing_code_never_rotated :
    (∀ (st : PairState) (req : PairingRequest) (now : Nat),
      ((handle_pairing st req now).1).pairingCode = st.pairingCode) ∧
    (handle_pairing exPairState exPairReq 100).2
      = PairingResponse.success (some "dev-1") "Phone" "android" ∧
    (handle_pairing (handle_pairing exPairState exPairReq 100).1 exPairReq 200).2
      = PairingResponse.success (some "dev-1") "Phone" "android" ∧
    (handle_pairing (handle_pairing exPairState exPairReq 100).1 exPairReq 200).1.pairedDevices
      ≠ ((handle_pairing exPairState exPairReq 100).1).pairedDevices := by
  refine ⟨?_, ?_, ?_, ?_⟩
  · intro st req now
    unfold handle_pairing
    split <;> rfl
  · decide
  · decide
  · decide

/-- Claim C3 as stated is false: with duplicate chunk indices,
`bytes_transferred` exceeds `size`.  Counterexample: a 1-byte file read twice
at chunk index 0 reports `bytes_transferred = 2 > 1 = size`. -/
theorem bytes_exceed_size_on_duplicate :
    ¬ (bytesAfter [7] 65536 [0, 0] ≤ ([7] : List Nat).length) := by
  decide

/-- Claim C3 (amended): `bytes_transferred` is non-decreasing over any
sequence of chunk reads, and it satisfies `0 ≤ bytes_transferred ≤ size` for
any sequence of pairwise-distinct chunk indices (distinct indices read
disjoint slices of the file, so their lengths sum to at most its size); a
duplicate or re-read chunk index adds its chunk length again and can push it
past `size`. -/
theorem bytes_monotone_and_bounded_distinct (file : List Nat) (cs : Nat)
    (pre suf idxs : List Nat) (h : idxs.Nodup) :
    bytesAfter file cs pre ≤ bytesAfter file cs (pre ++ suf) ∧
    bytesAfter file cs idxs ≤ file.length := by
  constructor
  · rw [bytesAfter_append]
    exact foldl_progress_le file cs suf _
  · exact bytesAfter_nodup_le file cs idxs h

/-- Witness for the amended C3: a 3-byte file, chunk size 2, a monotone
extension of the trace `[0]` by `[1, 0]`, and the distinct (unordered,
out-of-range-tolerant) index sequence `[1, 0, 5]`. -/
theorem bytes_monotone_and_bounded_distinct_witness :
    bytesAfter [7, 8, 9] 2 [0] ≤ bytesAfter [7, 8, 9] 2 ([0] ++ [1, 0]) ∧
    bytesAfter [7, 8, 9] 2 [1, 0, 5] ≤ ([7, 8, 9] : List Nat).length :=
  bytes_monotone_and_bounded_distinct [7, 8, 9] 2 [0] [1, 0] [1, 0, 5] (by decide)

/-- Claim C4 as stated is false: after the sync marker is consumed by one
suppressed poll, a later observation of the same content does not fire the
callback when the content did not change between polls (the `!= last_content`
guard).  Concretely: sync-set "hello", poll "hello" (suppressed, marker
cleared — second conjunct), poll "hello" again — no callback. -/
theorem echo_reobserve_does_not_fire :
    (pollStep (pollStep (set_clipboard_text ⟨none, "prev"⟩ "hello").1 "hello").1
        "hello").2 = false ∧
    ((pollStep (set_clipboard_text ⟨none, "prev"⟩ "hello").1 "hello").1).lastSync
      = none := by
  decide

/-- Claim C4 (amended): after the clipboard is set to `v` via the sync path,
the next poll observing `v` does not fire the change callback and clears the
one-shot marker; a later observation of content `c` with the marker cleared
fires the callback provided `c` differs from the immediately preceding poll's
observation and has a non-whitespace character — re-observing unchanged
content does not fire. -/
theorem echo_suppression_amended (st : ClipState) (v : String) (s2 : ClipState)
    (c : String) (h1 : s2.lastSync = none) (h2 : c ≠ s2.lastContent)
    (h3 : hasNonWS c = true) :
    (pollStep (set_clipboard_text st v).1 v).2 = false ∧
    ((pollStep (set_clipboard_text st v).1 v).1).lastSync = none ∧
    (pollStep s2 c).2 = true := by
  refine ⟨?_, ?_, ?_⟩
  · simp [pollStep, set_clipboard_text]
  · simp [pollStep, set_clipboard_text]
  · simp [pollStep, h1, h2, h3]

/-- Witness for the amended C4, at concrete states and strings. -/
theorem echo_suppression_amended_witness :
    (pollStep (set_clipboard_text ⟨none, "prev"⟩ "hello").1 "hello").2 = false ∧
    ((pollStep (set_clipboard_text ⟨none, "prev"⟩ "hello").1 "hello").1).lastSync
      = none ∧
    (pollStep ⟨none, "hello"⟩ "world").2 = true :=
  echo_suppression_amended ⟨none, "prev"⟩ "hello" ⟨none, "hello"⟩ "world"
    rfl (by decide) (by decide)

/-- Claim C5 as stated is false: a `clipboard_sync` frame from a paired
device does not set the local clipboard — `handle_clipboard` is a stub.  With
device `"d"` paired and the OS clipboard holding `"old"`, dispatching a
`clipboard_sync` frame with text `"hello"` leaves the clipboard at `"old"`
and never sets the echo marker. -/
theorem clipboard_sync_from_paired_not_applied :
    ¬ ((dispatch exServerState exClipFrame 0).1.osClipboard = "hello" ∨
       (dispatch exServerState exClipFrame 0).1.clip.lastSync = some "hello") := by
  decide

/-- Claim C5 (amended): every `clipboard_sync` frame received by the
dispatcher is routed to the stub `handle_clipboard`, which only logs: no
clipboard write, no echo-marker update, no response, and no state mutation,
whether or not the sender's `device_id` is paired. -/
theorem clipboard_sync_stub_no_mutation (st : ServerState) (frame : Frame)
    (now : Nat) (h : frame.type = some "clipboard_sync") :
    dispatch st frame now = (st, []) := by
  unfold dispatch
  rw [if_neg (by rw [h]; decide), if_pos h]
  rfl

/-- Witness for the amended C5: the concrete paired-sender scenario. -/
theorem clipboard_sync_stub_no_mutation_witness :
    dispatch exServerState exClipFrame 0 = (exServerState, []) :=
  clipboard_sync_stub_no_mutation exServerState exClipFrame 0 rfl

/-- Claim C6: a `pairing_request` whose code does not match the current
pairing code gets the fixed failure response, the paired-device table (and
the whole pairing state) is unchanged, and the failure response never
contains the real pairing code: no 6-character string over the code alphabet
(uppercase letters and digits) occurs inside the serialized failure frame. -/
theorem pairing_mismatch_no_mutation (st : PairState) (req : PairingRequest)
    (now : Nat) (code : String)
    (hmis : req.code ≠ some st.pairingCode)
    (h6 : code.data.length = 6)
    (halpha : ∀ c ∈ code.data, isCodeChar c = true) :
    handle_pairing st req now = (st, PairingResponse.failed "Invalid pairing code") ∧
    ¬ (code.data <:+: failResponseText.data) := by
  constructor
  · unfold handle_pairing
    rw [if_neg hmis]
  · intro hinf
    have hsub := hinf.sublist
    have hle := List.Sublist.countP_le isCodeChar hsub
    have hcode : List.countP isCodeChar code.data = 6 := by
      rw [List.countP_eq_length.mpr halpha, h6]
    have hresp : List.countP isCodeChar failResponseText.data = 1 := by decide
    omega

/-- Witness for C6: a mismatching request against code `"ABC123"`, with the
real code `"ABC123"` itself checked against the failure frame. -/
theorem pairing_mismatch_no_mutation_witness :
    handle_pairing ⟨"ABC123", []⟩ ⟨some "XYZ789", some "d", none, none⟩ 5
      = (⟨"ABC123", []⟩, PairingResponse.failed "Invalid pairing code") ∧
    ¬ ("ABC123".data <:+: failResponseText.data) :=
  pairing_mismatch_no_mutation ⟨"ABC123", []⟩ ⟨some "XYZ789", some "d", none, none⟩
    5 "ABC123" (by decide) (by decide) (by decide)

/-- Claim C7: on an upload of a 150000-byte file with chunk size 65536,
`read_file_chunk` yields non-empty data chunks at indices 0, 1 and 2 with
`final_chunk` false, false and true respectively, and any read at an index
`≥ 3` takes the empty-read completion path. -/
theorem upload_150000_chunk_indices (file : List Nat) (i : Nat)
    (h : file.length = 150000) (hi : 3 ≤ i) :
    read_file_chunk file 0 65536 = ChunkResult.data (file.take 65536) false ∧
    file.take 65536 ≠ [] ∧
    read_file_chunk file 1 65536
      = ChunkResult.data ((file.drop 65536).take 65536) false ∧
    (file.drop 65536).take 65536 ≠ [] ∧
    read_file_chunk file 2 65536
      = ChunkResult.data ((file.drop 131072).take 65536) true ∧
    (file.drop 131072).take 65536 ≠ [] ∧
    read_file_chunk file i 65536 = ChunkResult.eofComplete := by
  have hne : ∀ j : Nat, j * 65536 < 150000 → (file.drop (j * 65536)).take 65536 ≠ [] := by
    intro j hj hnil
    have hl : ((file.drop (j * 65536)).take 65536).length = 0 := by rw [hnil]; rfl
    simp only [List.length_take, List.length_drop, h] at hl
    omega
  refine ⟨?_, ?_, ?_, ?_, ?_, ?_, ?_⟩
  · unfold read_file_chunk
    rw [if_neg (by simp), h]
    rfl
  · exact hne 0 (by omega)
  · unfold read_file_chunk
    rw [if_neg (fun hc => absurd hc.1 (hne 1 (by omega))), h]
    rfl
  · exact hne 1 (by omega)
  · unfold read_file_chunk
    rw [if_neg (fun hc => absurd hc.1 (hne 2 (by omega))), h]
    rfl
  · exact hne 2 (by omega)
  · unfold read_file_chunk
    rw [if_pos]
    constructor
    · have hge : 150000 ≤ i * 65536 := by
        calc (150000 : Nat) ≤ 3 * 65536 := by omega
        _ ≤ i * 65536 := Nat.mul_le_mul_right _ hi
      have hd : (file.drop (i * 65536)).length = 0 := by
        simp only [List.length_drop, h]
        omega
      have hdn : file.drop (i * 65536) = [] := List.eq_nil_of_length_eq_zero hd
      rw [hdn]
      rfl
    · omega

/-- Witness for C7: the concrete 150000-byte all-zero file at index 3. -/
theorem upload_150000_chunk_indices_witness :
    read_file_chunk (List.replicate 150000 0) 0 65536
      = ChunkResult.data ((List.replicate 150000 0).take 65536) false ∧
    (List.replicate 150000 0).take 65536 ≠ [] ∧
    read_file_chunk (List.replicate 150000 0) 1 65536
      = ChunkResult.data (((List.replicate 150000 0).drop 65536).take 65536) false ∧
    ((List.replicate 150000 0).drop 65536).take 65536 ≠ [] ∧
    read_file_chunk (List.replicate 150000 0) 2 65536
      = ChunkResult.data (((List.replicate 150000 0).drop 131072).take 65536) true ∧
    ((List.replicate 150000 0).drop 131072).take 65536 ≠ [] ∧
    read_file_chunk (List.replicate 150000 0) 3 65536 = ChunkResult.eofComplete :=
  upload_150000_chunk_indices (List.replicate 150000 0) 3
    (List.length_replicate 150000 0) (by omega)

/-- Claim C8: `cancel_transfer` on a `file_id` that is not in the
active-transfer table returns the `{"status": "error", "message": …}`
dictionary (no exception) and leaves the transfer table and the filesystem
unchanged. -/
theorem cancel_unknown_transfer (tbl : List (String × Transfer))
    (fs : List String) (file_id : String)
    (h : lookupTransfer tbl file_id = none) :
    cancel_transfer tbl fs file_id
      = (tbl, fs, CancelResult.errorResult ("Unknown transfer ID: " ++ file_id)) := by
  unfold cancel_transfer
  rw [h]

/-- Witness for C8: cancelling an unknown id against an empty table. -/
theorem cancel_unknown_transfer_witness :
    cancel_transfer [] ["~/Downloads/SIC-Transfers/a.txt"] "missing-id"
      = ([], ["~/Downloads/SIC-Transfers/a.txt"],
         CancelResult.errorResult ("Unknown transfer ID: " ++ "missing-id")) :=
  cancel_unknown_transfer [] ["~/Downloads/SIC-Transfers/a.txt"] "missing-id" rfl

/-- Claim C9: `prepare_download_transfer` raises
`ValueError("Missing required file information")` whenever any of `file_id`,
`file_name`, `file_size`, `key` or `iv` is falsy; in particular
`file_size = 0` is falsy, so a zero-byte download can never be initiated. -/
theorem prepare_download_rejects_falsy (info : FileInfo) (device_id : String)
    (fs : List String) (tbl : List (String × Transfer))
    (h : truthyStr info.file_id = false ∨ truthyStr info.file_name = false ∨
         truthyNat info.file_size = false ∨ truthyStr info.key = false ∨
         truthyStr info.iv = false) :
    prepare_download_transfer info device_id fs tbl
      = Except.error "Missing required file information" := by
  have hc : (truthyStr info.file_id && truthyStr info.file_name &&
      truthyNat info.file_size && truthyStr info.key && truthyStr info.iv) = false := by
    rcases h with h | h | h | h | h <;> simp [h]
  unfold prepare_download_transfer
  rw [hc]
  rfl

/-- Witness for C9: a descriptor for a zero-byte file, all other fields
present, is rejected. -/
theorem prepare_download_rejects_falsy_witness :
    prepare_download_transfer
      ⟨some "f-1", some "a.txt", some 0, some "S0VZ", some "SVY="⟩ "dev-1" [] []
      = Except.error "Missing required file information" :=
  prepare_download_rejects_falsy
    ⟨some "f-1", some "a.txt", some 0, some "S0VZ", some "SVY="⟩ "dev-1" [] []
    (Or.inr (Or.inr (Or.inl (by decide))))

/-- Claim C10: the clipboard monitor never fires the change callback for an
observed value that is empty or consists only of whitespace (its Python
`strip()` is falsy), whatever the monitor state. -/
theorem blank_clipboard_never_fires (st : ClipState) (current : String)
    (h : hasNonWS current = false) :
    (pollStep st current).2 = false := by
  simp [pollStep, h]

/-- Witness for C10: observing a whitespace-only string fires nothing. -/
theorem blank_clipboard_never_fires_witness :
    (pollStep ⟨none, "x"⟩ " ").2 = false :=
  blank_clipboard_never_fires ⟨none, "x"⟩ " " (by decide)

end SIC
